import Mathlib

/-
Verification of the packet-processing core of the `jnet` IPv4 firmware
example (`src/firmware/examples/ipv4.rs`, function `process`).

The firmware's `process` function is translated into a pure Lean function
on byte lists.  The layered parsers (`jnet::{ether, arp, ipv4, icmp, udp}`)
and the bounded cache (`heapless::FnvIndexMap`) live outside this
repository's sources, so their behaviour is modelled from the specification
(wire formats of spec section 6, cache semantics of spec sections 3 and 4.4).
Buffers are lists of natural numbers standing for bytes; a view into the
buffer at a given layer is realised by `List.drop` / segment extraction, and
an in-place field write is realised by rebuilding the buffer with the
written region replaced, which yields exactly the bytes the firmware's
in-place mutation leaves in the shared buffer.
-/

namespace Jnet

/-- A byte buffer: a list of byte values. -/
abbrev Bytes := List Nat

/-- Read the segment of `len` bytes starting at offset `off`. -/
def seg (b : Bytes) (off len : Nat) : Bytes :=
  (b.drop off).take len

/-- The value of a single byte at offset `off` (0 when out of range). -/
def byteAt (b : Bytes) (off : Nat) : Nat :=
  b.getD off 0

/-- Big-endian 16-bit value at offset `off`. -/
def be16 (b : Bytes) (off : Nat) : Nat :=
  256 * byteAt b off + byteAt b (off + 1)

/-- Big-endian 2-byte encoding of a 16-bit value. -/
def be16Bytes (n : Nat) : Bytes :=
  [n / 256 % 256, n % 256]

/-- Modelled from the spec: the device's configured MAC address
(`const MAC` in the firmware source). -/
def MAC : Bytes := [0x20, 0x19, 0x01, 0x30, 0x23, 0x59]

/-- The device's configured IPv4 address (`const IP` in the firmware source). -/
def IP : Bytes := [192, 168, 1, 33]

/-- The compile-time cache capacity (`type ARP_CACHE_SIZE = consts::U8`). -/
def ARP_CACHE_SIZE : Nat := 8

/-- The all-ones broadcast MAC address. -/
def broadcastMac : Bytes := [0xff, 0xff, 0xff, 0xff, 0xff, 0xff]

/-- Modelled from the spec: the resolution cache (`heapless::FnvIndexMap`
is external to this repository).  An association list from IPv4 address to
MAC address with unique keys, bounded by `ARP_CACHE_SIZE`. -/
abbrev Cache := List (Bytes × Bytes)

/-- Cache lookup: the MAC stored for key `k`, if any (`FnvIndexMap::get`). -/
def lookup : Cache → Bytes → Option Bytes
  | [], _ => none
  | (k, v) :: rest, k' => if k' = k then some v else lookup rest k'

/-- Overwrite the value stored at an existing key. -/
def overwrite : Cache → Bytes → Bytes → Cache
  | [], _, _ => []
  | (k, v) :: rest, k', v' =>
      if k' = k then (k, v') :: rest else (k, v) :: overwrite rest k' v'

/-- Modelled from the spec: `FnvIndexMap::insert` semantics — an existing
key is overwritten; a new key is appended when below capacity; inserting a
new key at capacity fails (`none`) without side effects. -/
def insertOrUpdate (c : Cache) (k v : Bytes) : Option Cache :=
  if (lookup c k).isSome then some (overwrite c k v)
  else if c.length < ARP_CACHE_SIZE then some (c ++ [(k, v)])
  else none

/-- The cache state after the firmware's insert call: a failed insert is
reported as a warning and leaves the cache unchanged. -/
def cacheInsert (c : Cache) (k v : Bytes) : Cache :=
  (insertOrUpdate c k v).getD c

/- ## Ethernet layer (modelled from the spec: `jnet::ether::Frame`) -/

/-- Size in bytes of the Ethernet II header. -/
def ethHeaderSize : Nat := 14

/-- Modelled from the spec: `ether::Frame::parse` succeeds iff the buffer
holds at least the Ethernet header. -/
def ethParseOk (b : Bytes) : Prop := ethHeaderSize ≤ b.length

instance (b : Bytes) : Decidable (ethParseOk b) := by
  unfold ethParseOk; infer_instance

/-- Destination MAC of an Ethernet frame. -/
def ethDestination (b : Bytes) : Bytes := seg b 0 6

/-- Source MAC of an Ethernet frame. -/
def ethSource (b : Bytes) : Bytes := seg b 6 6

/-- EtherType field (big-endian 16-bit at offset 12). -/
def ethTypeVal (b : Bytes) : Nat := be16 b 12

/-- EtherType value for ARP. -/
def etherTypeArp : Nat := 0x0806

/-- EtherType value for IPv4. -/
def etherTypeIpv4 : Nat := 0x0800

/-- The frame's payload: everything after the header. -/
def ethPayload (b : Bytes) : Bytes := b.drop ethHeaderSize

/-- Rebuild an Ethernet frame with new destination and source MACs and a
new payload; the EtherType bytes are kept from the original buffer.  This
is the buffer that the firmware's in-place `set_destination` /
`set_source` / payload mutation leaves behind. -/
def ethSet (b : Bytes) (dst src payload : Bytes) : Bytes :=
  dst ++ (src ++ (seg b 12 2 ++ payload))

/- ## ARP layer (modelled from the spec: `jnet::arp::Packet` and its
IPv4-over-Ethernet downcast) -/

/-- Wire size of an IPv4-over-Ethernet ARP packet body. -/
def arpSize : Nat := 28

/-- Modelled from the spec: a payload parses (and downcasts) as an
IPv4-over-Ethernet ARP packet iff it holds the 28-byte body and has
hardware type Ethernet (1), protocol type IPv4 (0x0800) and
hardware/protocol address lengths 6/4. -/
def arpParseOk (p : Bytes) : Prop :=
  arpSize ≤ p.length ∧ be16 p 0 = 1 ∧ be16 p 2 = 0x0800 ∧
    byteAt p 4 = 6 ∧ byteAt p 5 = 4

instance (p : Bytes) : Decidable (arpParseOk p) := by
  unfold arpParseOk; infer_instance

/-- ARP operation code (1 = Request, 2 = Reply). -/
def arpOper (p : Bytes) : Nat := be16 p 6

/-- ARP sender hardware address. -/
def arpSha (p : Bytes) : Bytes := seg p 8 6

/-- ARP sender protocol address. -/
def arpSpa (p : Bytes) : Bytes := seg p 14 4

/-- ARP target hardware address. -/
def arpTha (p : Bytes) : Bytes := seg p 18 6

/-- ARP target protocol address. -/
def arpTpa (p : Bytes) : Bytes := seg p 24 4

/-- An ARP packet is a probe iff its sender protocol address is 0.0.0.0. -/
def arpIsProbe (p : Bytes) : Prop := arpSpa p = [0, 0, 0, 0]

instance (p : Bytes) : Decidable (arpIsProbe p) := by
  unfold arpIsProbe; infer_instance

/-- The ARP body after the firmware's in-place reply construction:
operation set to Reply (2), sha/spa set to the device identity, tha/tpa
set to the request's sha/spa; the fixed 6-byte prefix and any trailing
bytes are untouched. -/
def arpReplyPayload (p : Bytes) : Bytes :=
  seg p 0 6 ++ ([0, 2] ++ (MAC ++ (IP ++ (arpSha p ++ (arpSpa p ++ p.drop arpSize)))))

/- ## Internet checksum (16-bit one's-complement sum) -/

/-- Split a byte list into big-endian 16-bit words, padding a trailing odd
byte with zero. -/
def toWords : Bytes → List Nat
  | [] => []
  | [a] => [256 * a]
  | a :: b :: rest => (256 * a + b) :: toWords rest

/-- Fold the carries of a one's-complement accumulation back in, with
explicit fuel (the fuel is always sufficient because each step strictly
decreases the value). -/
def foldCarryAux : Nat → Nat → Nat
  | 0, n => n % 65536
  | fuel + 1, n => if n < 65536 then n else foldCarryAux fuel (n % 65536 + n / 65536)

/-- End-around-carry reduction of a checksum accumulator to 16 bits. -/
def foldCarry (n : Nat) : Nat := foldCarryAux n n

/-- The Internet checksum of a byte string: one's complement of the
one's-complement sum of its 16-bit words. -/
def checksum16 (b : Bytes) : Nat :=
  65535 - foldCarry (toWords b).sum

/- ## IPv4 layer (modelled from the spec: `jnet::ipv4::Packet`) -/

/-- Size in bytes of the option-less IPv4 header used by this profile. -/
def ipHeaderSize : Nat := 20

/-- IPv4 total-length field (big-endian 16-bit at offset 2). -/
def ipTotalLength (p : Bytes) : Nat := be16 p 2

/-- Modelled from the spec: an IPv4 packet parses iff it holds the 20-byte
option-less header (version 4, IHL 5, i.e. first byte 0x45) and its
total-length field is consistent (at least the header, at most the
buffer). -/
def ipParseOk (p : Bytes) : Prop :=
  ipHeaderSize ≤ p.length ∧ byteAt p 0 = 0x45 ∧
    ipHeaderSize ≤ ipTotalLength p ∧ ipTotalLength p ≤ p.length

instance (p : Bytes) : Decidable (ipParseOk p) := by
  unfold ipParseOk; infer_instance

/-- IPv4 protocol field (1 = ICMP, 17 = UDP). -/
def ipProtocol (p : Bytes) : Nat := byteAt p 9

/-- IPv4 protocol number of ICMP. -/
def protoIcmp : Nat := 1

/-- IPv4 protocol number of UDP. -/
def protoUdp : Nat := 17

/-- IPv4 header checksum field (big-endian 16-bit at offset 10). -/
def ipChecksumField (p : Bytes) : Nat := be16 p 10

/-- IPv4 source address. -/
def ipSource (p : Bytes) : Bytes := seg p 12 4

/-- IPv4 destination address. -/
def ipDestination (p : Bytes) : Bytes := seg p 16 4

/-- The IPv4 payload: the bytes between the header and the total length
(link-layer padding beyond the total length is not part of the packet). -/
def ipPayload (p : Bytes) : Bytes := seg p ipHeaderSize (ipTotalLength p - ipHeaderSize)

/-- The 20-byte IPv4 header with new source and destination addresses and
the checksum field zeroed, as fed to the checksum computation. -/
def ipHeaderZeroCk (p : Bytes) (src dst : Bytes) : Bytes :=
  seg p 0 10 ++ ([0, 0] ++ (src ++ dst))

/-- The IPv4 packet bytes after the firmware's in-place reply rewriting:
source and destination replaced, header checksum recomputed, the payload
region replaced by `newPayload`, and any bytes beyond the total length
untouched. -/
def ipRewrite (p : Bytes) (src dst newPayload : Bytes) : Bytes :=
  seg p 0 10 ++ (be16Bytes (checksum16 (ipHeaderZeroCk p src dst)) ++ (src ++ (dst ++
    (newPayload ++ p.drop (ipTotalLength p)))))

/- ## ICMP layer (modelled from the spec: `jnet::icmp::Message`) -/

/-- Size in bytes of the ICMP echo header (type, code, checksum,
identifier, sequence number). -/
def icmpHeaderSize : Nat := 8

/-- Modelled from the spec: an ICMP message parses iff it holds the 8-byte
header. -/
def icmpParseOk (m : Bytes) : Prop := icmpHeaderSize ≤ m.length

instance (m : Bytes) : Decidable (icmpParseOk m) := by
  unfold icmpParseOk; infer_instance

/-- ICMP type field (8 = Echo Request, 0 = Echo Reply). -/
def icmpTypeVal (m : Bytes) : Nat := byteAt m 0

/-- ICMP type value of an Echo Request. -/
def icmpEchoRequest : Nat := 8

/-- ICMP type value of an Echo Reply. -/
def icmpEchoReply : Nat := 0

/-- ICMP checksum field. -/
def icmpChecksumField (m : Bytes) : Nat := be16 m 2

/-- ICMP echo identifier. -/
def icmpId (m : Bytes) : Nat := be16 m 4

/-- ICMP echo sequence number. -/
def icmpSeq (m : Bytes) : Nat := be16 m 6

/-- ICMP echo payload: the bytes after the echo header. -/
def icmpEchoPayload (m : Bytes) : Bytes := m.drop icmpHeaderSize

/-- The ICMP message with its checksum field zeroed, as fed to the
checksum computation for the reply. -/
def icmpZeroCk (m : Bytes) : Bytes :=
  [0, byteAt m 1] ++ ([0, 0] ++ m.drop 4)

/-- The ICMP message after the firmware's in-place EchoRequest →
EchoReply conversion: type set to 0, checksum recomputed, identifier,
sequence number and payload untouched. -/
def icmpToReply (m : Bytes) : Bytes :=
  [0, byteAt m 1] ++ (be16Bytes (checksum16 (icmpZeroCk m)) ++ m.drop 4)

/- ## UDP layer (modelled from the spec: `jnet::udp::Packet`) -/

/-- Size in bytes of the UDP header. -/
def udpHeaderSize : Nat := 8

/-- Modelled from the spec: a UDP packet parses iff it holds the 8-byte
header. -/
def udpParseOk (u : Bytes) : Prop := udpHeaderSize ≤ u.length

instance (u : Bytes) : Decidable (udpParseOk u) := by
  unfold udpParseOk; infer_instance

/-- UDP source port. -/
def udpSourcePort (u : Bytes) : Nat := be16 u 0

/-- UDP destination port. -/
def udpDestinationPort (u : Bytes) : Nat := be16 u 2

/-- UDP checksum field (0 means "unchecked"). -/
def udpChecksumField (u : Bytes) : Nat := be16 u 6

/-- The UDP packet after the firmware's in-place echo rewriting: source
and destination ports swapped, checksum zeroed, length field and payload
untouched. -/
def udpEcho (u : Bytes) : Bytes :=
  seg u 2 2 ++ (seg u 0 2 ++ (seg u 4 2 ++ ([0, 0] ++ u.drop udpHeaderSize)))

/- ## The dispatcher (`process` in `src/firmware/examples/ipv4.rs`) -/

/-- The outcome of processing one frame (`enum Action` in the source). -/
inductive Action where
  | arpReply
  | echoReply
  | udpReply
  | nop
deriving DecidableEq, Repr

/-- The complete effect of one `process` call: the returned action tag,
the final contents of the shared buffer, and the final cache. -/
structure Result where
  action : Action
  buffer : Bytes
  cache : Cache
deriving DecidableEq, Repr

/-- The ARP arm of `process` (source lines 278–321). -/
def handleArp (bytes : Bytes) (cache : Cache) : Result :=
  let p := ethPayload bytes
  if arpParseOk p then
    let cache1 := if arpIsProbe p then cache else cacheInsert cache (arpSpa p) (arpSha p)
    if arpOper p = 1 ∧ arpTpa p = IP then
      ⟨Action.arpReply, ethSet bytes (arpSha p) MAC (arpReplyPayload p), cache1⟩
    else
      ⟨Action.nop, bytes, cache1⟩
  else
    ⟨Action.nop, bytes, cache⟩

/-- The ICMP arm of `process` (source lines 343–380); `p` is the parsed
IPv4 packet, `cache1` the cache after the opportunistic insert. -/
def handleIcmp (bytes p srcIp : Bytes) (cache1 : Cache) : Result :=
  let m := ipPayload p
  if icmpParseOk m then
    if icmpTypeVal m = icmpEchoRequest then
      match lookup cache1 srcIp with
      | some mac =>
          ⟨Action.echoReply, ethSet bytes mac MAC (ipRewrite p IP srcIp (icmpToReply m)), cache1⟩
      | none => ⟨Action.nop, bytes, cache1⟩
    else
      ⟨Action.nop, bytes, cache1⟩
  else
    ⟨Action.nop, bytes, cache1⟩

/-- The UDP arm of `process` (source lines 382–417). -/
def handleUdp (bytes p srcIp : Bytes) (cache1 : Cache) : Result :=
  let u := ipPayload p
  if udpParseOk u then
    match lookup cache1 srcIp with
    | some mac =>
        ⟨Action.udpReply, ethSet bytes mac MAC (ipRewrite p IP srcIp (udpEcho u)), cache1⟩
    | none => ⟨Action.nop, bytes, cache1⟩
  else
    ⟨Action.nop, bytes, cache1⟩

/-- The cache after the IPv4 arm's opportunistic insert (source lines
334–340): unless the frame's source MAC is broadcast, insert/update
(source IP → source MAC). -/
def ipv4CacheAfterInsert (bytes : Bytes) (cache : Cache) : Cache :=
  if ethSource bytes = broadcastMac then cache
  else cacheInsert cache (ipSource (ethPayload bytes)) (ethSource bytes)

/-- The IPv4 arm of `process` (source lines 323–423). -/
def handleIpv4 (bytes : Bytes) (cache : Cache) : Result :=
  let p := ethPayload bytes
  if ipParseOk p then
    let srcIp := ipSource p
    let cache1 := ipv4CacheAfterInsert bytes cache
    if ipProtocol p = protoIcmp then handleIcmp bytes p srcIp cache1
    else if ipProtocol p = protoUdp then handleUdp bytes p srcIp cache1
    else ⟨Action.nop, bytes, cache1⟩
  else
    ⟨Action.nop, bytes, cache⟩

/-- The dispatcher `process` (source lines 263–430): parse the buffer as
an Ethernet frame and dispatch on the EtherType. -/
def process (bytes : Bytes) (cache : Cache) : Result :=
  if ethParseOk bytes then
    if ethTypeVal bytes = etherTypeArp then handleArp bytes cache
    else if ethTypeVal bytes = etherTypeIpv4 then handleIpv4 bytes cache
    else ⟨Action.nop, bytes, cache⟩
  else
    ⟨Action.nop, bytes, cache⟩

/- ## Generic lemmas about byte segments -/

theorem seg_length {b : Bytes} {o n : Nat} (h : o + n ≤ b.length) :
    (seg b o n).length = n := by
  unfold seg
  rw [List.length_take, List.length_drop]
  omega

theorem seg_append_left {l r : Bytes} {o n : Nat} (h : o + n ≤ l.length) :
    seg (l ++ r) o n = seg l o n := by
  unfold seg
  rw [List.drop_append_of_le_length (by omega), List.take_append_of_le_length]
  rw [List.length_drop]
  omega

theorem seg_append_right {l r : Bytes} {o n : Nat} (h : l.length ≤ o) :
    seg (l ++ r) o n = seg r (o - l.length) n := by
  unfold seg
  have h2 : o = l.length + (o - l.length) := by omega
  rw [h2, List.drop_append, Nat.add_sub_cancel_left]

theorem seg_all {b : Bytes} {n : Nat} (h : b.length = n) : seg b 0 n = b := by
  unfold seg
  rw [List.drop_zero, List.take_of_length_le (by omega)]

theorem byteAt_append_left {l r : Bytes} {o : Nat} (h : o < l.length) :
    byteAt (l ++ r) o = byteAt l o := by
  unfold byteAt
  rw [List.getD_eq_getElem?_getD, List.getD_eq_getElem?_getD, List.getElem?_append, if_pos h]

theorem byteAt_append_right {l r : Bytes} {o : Nat} (h : l.length ≤ o) :
    byteAt (l ++ r) o = byteAt r (o - l.length) := by
  unfold byteAt
  rw [List.getD_eq_getElem?_getD, List.getD_eq_getElem?_getD, List.getElem?_append_right h]

theorem byteAt_seg {b : Bytes} {o n i : Nat} (h : i < n) :
    byteAt (seg b o n) i = byteAt b (o + i) := by
  unfold seg byteAt
  rw [List.getD_eq_getElem?_getD, List.getD_eq_getElem?_getD, List.getElem?_take_of_lt h,
    List.getElem?_drop]

theorem byteAt_drop {b : Bytes} {o i : Nat} : byteAt (b.drop o) i = byteAt b (o + i) := by
  unfold byteAt
  rw [List.getD_eq_getElem?_getD, List.getD_eq_getElem?_getD, List.getElem?_drop]

theorem be16_append_right {l r : Bytes} {o : Nat} (h : l.length ≤ o) :
    be16 (l ++ r) o = be16 r (o - l.length) := by
  unfold be16
  rw [byteAt_append_right h, byteAt_append_right (l := l) (by omega)]
  have h2 : o + 1 - l.length = o - l.length + 1 := by omega
  rw [h2]

theorem be16_seg {b : Bytes} {o n i : Nat} (h : i + 1 < n) :
    be16 (seg b o n) i = be16 b (o + i) := by
  unfold be16
  rw [byteAt_seg (by omega), byteAt_seg (by omega), Nat.add_assoc]

theorem be16_drop {b : Bytes} {o i : Nat} : be16 (b.drop o) i = be16 b (o + i) := by
  unfold be16
  rw [byteAt_drop, byteAt_drop, Nat.add_assoc]

theorem checksum16_lt (b : Bytes) : checksum16 b < 65536 := by
  unfold checksum16
  omega

theorem be16_be16Bytes {n : Nat} (h : n < 65536) : be16 (be16Bytes n) 0 = n := by
  unfold be16 be16Bytes byteAt
  simp [List.getD]
  omega

theorem drop_append_ge {l r : Bytes} {n : Nat} (h : l.length ≤ n) :
    (l ++ r).drop n = r.drop (n - l.length) := by
  have h2 : n = l.length + (n - l.length) := by omega
  rw [h2, List.drop_append, Nat.add_sub_cancel_left]

/- ## Lengths of the device constants -/

theorem MAC_length : MAC.length = 6 := rfl

theorem IP_length : IP.length = 4 := rfl

theorem be16Bytes_length (n : Nat) : (be16Bytes n).length = 2 := rfl

theorem be16_first2 {x r : Bytes} (h : x.length = 2) : be16 (x ++ r) 0 = be16 x 0 := by
  unfold be16
  rw [byteAt_append_left (by omega), byteAt_append_left (by omega)]

/- ## Reading back the rebuilt Ethernet frame -/

theorem ethSet_destination {b d s pl : Bytes} (hd : d.length = 6) :
    ethDestination (ethSet b d s pl) = d := by
  unfold ethDestination ethSet
  rw [seg_append_left (by omega), seg_all hd]

theorem ethSet_source {b d s pl : Bytes} (hd : d.length = 6) (hs : s.length = 6) :
    ethSource (ethSet b d s pl) = s := by
  unfold ethSource ethSet
  rw [seg_append_right (l := d) (by omega), hd]
  norm_num
  rw [seg_append_left (by omega), seg_all hs]

theorem ethSet_typeVal {b d s pl : Bytes} (hd : d.length = 6) (hs : s.length = 6)
    (hb : 14 ≤ b.length) : ethTypeVal (ethSet b d s pl) = ethTypeVal b := by
  have ht : (seg b 12 2).length = 2 := seg_length (by omega)
  unfold ethTypeVal ethSet
  rw [be16_append_right (l := d) (by omega), hd]
  norm_num
  rw [be16_append_right (l := s) (by omega), hs]
  norm_num
  rw [be16_first2 ht, be16_seg (by omega)]

theorem ethSet_payload {b d s pl : Bytes} (hd : d.length = 6) (hs : s.length = 6)
    (hb : 14 ≤ b.length) : ethPayload (ethSet b d s pl) = pl := by
  have ht : (seg b 12 2).length = 2 := seg_length (by omega)
  unfold ethPayload ethSet ethHeaderSize
  rw [drop_append_ge (l := d) (by omega), hd]
  norm_num
  rw [drop_append_ge (l := s) (by omega), hs]
  norm_num
  rw [drop_append_ge (l := seg b 12 2) (by omega), ht]
  norm_num

theorem ethSet_length {b d s pl : Bytes} (hd : d.length = 6) (hs : s.length = 6)
    (hb : 14 ≤ b.length) : (ethSet b d s pl).length = 14 + pl.length := by
  have ht : (seg b 12 2).length = 2 := seg_length (by omega)
  unfold ethSet
  simp only [List.length_append, hd, hs, ht]
  omega

/- ## Offset-skipping helper lemmas -/

theorem seg_append_skip {l r : Bytes} {o n k : Nat} (h : l.length + k = o) :
    seg (l ++ r) o n = seg r k n := by
  rw [seg_append_right (by omega)]
  have h2 : o - l.length = k := by omega
  rw [h2]

theorem byteAt_append_skip {l r : Bytes} {o k : Nat} (h : l.length + k = o) :
    byteAt (l ++ r) o = byteAt r k := by
  rw [byteAt_append_right (by omega)]
  have h2 : o - l.length = k := by omega
  rw [h2]

theorem be16_append_skip {l r : Bytes} {o k : Nat} (h : l.length + k = o) :
    be16 (l ++ r) o = be16 r k := by
  rw [be16_append_right (by omega)]
  have h2 : o - l.length = k := by omega
  rw [h2]

theorem drop_append_skip {l r : Bytes} {o k : Nat} (h : l.length + k = o) :
    (l ++ r).drop o = r.drop k := by
  rw [drop_append_ge (by omega)]
  have h2 : o - l.length = k := by omega
  rw [h2]

theorem be16_append_left {l r : Bytes} {o : Nat} (h : o + 1 < l.length) :
    be16 (l ++ r) o = be16 l o := by
  unfold be16
  rw [byteAt_append_left (by omega), byteAt_append_left (by omega)]

/- ## Reading back the rebuilt ARP body -/

theorem arpReplyPayload_oper {p : Bytes} (hp : 28 ≤ p.length) :
    arpOper (arpReplyPayload p) = 2 := by
  have hA : (seg p 0 6).length = 6 := seg_length (by omega)
  unfold arpOper arpReplyPayload
  rw [be16_append_skip (k := 0) (by omega), be16_first2 (by simp)]
  rfl

theorem arpReplyPayload_sha {p : Bytes} (hp : 28 ≤ p.length) :
    arpSha (arpReplyPayload p) = MAC := by
  have hA : (seg p 0 6).length = 6 := seg_length (by omega)
  unfold arpReplyPayload
  unfold arpSha
  rw [seg_append_skip (k := 2) (by omega), seg_append_skip (k := 0) (by simp),
    seg_append_left (by rw [MAC_length]), seg_all MAC_length]

theorem arpReplyPayload_spa {p : Bytes} (hp : 28 ≤ p.length) :
    arpSpa (arpReplyPayload p) = IP := by
  have hA : (seg p 0 6).length = 6 := seg_length (by omega)
  unfold arpReplyPayload
  unfold arpSpa
  rw [seg_append_skip (k := 8) (by omega), seg_append_skip (k := 6) (by simp),
    seg_append_skip (k := 0) (by rw [MAC_length]),
    seg_append_left (by rw [IP_length]), seg_all IP_length]

theorem arpReplyPayload_tha {p : Bytes} (hp : 28 ≤ p.length) :
    arpTha (arpReplyPayload p) = arpSha p := by
  have hA : (seg p 0 6).length = 6 := seg_length (by omega)
  have hS : (arpSha p).length = 6 := seg_length (by omega)
  unfold arpReplyPayload
  unfold arpTha
  rw [seg_append_skip (k := 12) (by omega), seg_append_skip (k := 10) (by simp),
    seg_append_skip (k := 4) (by rw [MAC_length]),
    seg_append_skip (k := 0) (by rw [IP_length]),
    seg_append_left (by omega), seg_all hS]

theorem arpReplyPayload_tpa {p : Bytes} (hp : 28 ≤ p.length) :
    arpTpa (arpReplyPayload p) = arpSpa p := by
  have hA : (seg p 0 6).length = 6 := seg_length (by omega)
  have hS : (arpSha p).length = 6 := seg_length (by omega)
  have hQ : (arpSpa p).length = 4 := seg_length (by omega)
  unfold arpReplyPayload
  unfold arpTpa
  rw [seg_append_skip (k := 18) (by omega), seg_append_skip (k := 16) (by simp),
    seg_append_skip (k := 10) (by rw [MAC_length]),
    seg_append_skip (k := 6) (by rw [IP_length]),
    seg_append_skip (k := 0) (by omega),
    seg_append_left (by omega), seg_all hQ]

theorem arpReplyPayload_length {p : Bytes} (hp : 28 ≤ p.length) :
    (arpReplyPayload p).length = p.length := by
  have hA : (seg p 0 6).length = 6 := seg_length (by omega)
  have hS : (arpSha p).length = 6 := seg_length (by omega)
  have hQ : (arpSpa p).length = 4 := seg_length (by omega)
  unfold arpReplyPayload
  simp only [List.length_append, hA, hS, hQ, MAC_length, IP_length, List.length_drop,
    List.length_cons, List.length_nil]
  unfold arpSize
  omega

/- ## Reading back the rebuilt IPv4 packet -/

theorem ipRewrite_byteAt0 {p q d npl : Bytes} (hp : 20 ≤ p.length) :
    byteAt (ipRewrite p q d npl) 0 = byteAt p 0 := by
  have hH : (seg p 0 10).length = 10 := seg_length (by omega)
  unfold ipRewrite
  rw [byteAt_append_left (by omega), byteAt_seg (by omega)]

theorem ipRewrite_totalLength {p q d npl : Bytes} (hp : 20 ≤ p.length) :
    ipTotalLength (ipRewrite p q d npl) = ipTotalLength p := by
  have hH : (seg p 0 10).length = 10 := seg_length (by omega)
  unfold ipTotalLength ipRewrite
  rw [be16_append_left (by omega), be16_seg (by omega)]

theorem ipRewrite_protocol {p q d npl : Bytes} (hp : 20 ≤ p.length) :
    ipProtocol (ipRewrite p q d npl) = ipProtocol p := by
  have hH : (seg p 0 10).length = 10 := seg_length (by omega)
  unfold ipProtocol ipRewrite
  rw [byteAt_append_left (by omega), byteAt_seg (by omega)]

theorem ipRewrite_checksumField {p q d npl : Bytes} (hp : 20 ≤ p.length) :
    ipChecksumField (ipRewrite p q d npl) = checksum16 (ipHeaderZeroCk p q d) := by
  have hH : (seg p 0 10).length = 10 := seg_length (by omega)
  unfold ipChecksumField ipRewrite
  rw [be16_append_skip (k := 0) (by omega), be16_first2 (be16Bytes_length _),
    be16_be16Bytes (checksum16_lt _)]

theorem ipRewrite_source {p q d npl : Bytes} (hp : 20 ≤ p.length) (hq : q.length = 4) :
    ipSource (ipRewrite p q d npl) = q := by
  have hH : (seg p 0 10).length = 10 := seg_length (by omega)
  have hC : (be16Bytes (checksum16 (ipHeaderZeroCk p q d))).length = 2 := be16Bytes_length _
  unfold ipSource ipRewrite
  rw [seg_append_skip (k := 2) (by omega), seg_append_skip (k := 0) (by omega),
    seg_append_left (by omega), seg_all hq]

theorem ipRewrite_destination {p q d npl : Bytes} (hp : 20 ≤ p.length) (hq : q.length = 4)
    (hd : d.length = 4) : ipDestination (ipRewrite p q d npl) = d := by
  have hH : (seg p 0 10).length = 10 := seg_length (by omega)
  have hC : (be16Bytes (checksum16 (ipHeaderZeroCk p q d))).length = 2 := be16Bytes_length _
  unfold ipDestination ipRewrite
  rw [seg_append_skip (k := 6) (by omega), seg_append_skip (k := 4) (by omega),
    seg_append_skip (k := 0) (by omega), seg_append_left (by omega), seg_all hd]

theorem ipRewrite_payload {p q d npl : Bytes} (hp : 20 ≤ p.length) (hq : q.length = 4)
    (hd : d.length = 4) (hn : npl.length = ipTotalLength p - 20) :
    ipPayload (ipRewrite p q d npl) = npl := by
  have hH : (seg p 0 10).length = 10 := seg_length (by omega)
  have hC : (be16Bytes (checksum16 (ipHeaderZeroCk p q d))).length = 2 := be16Bytes_length _
  unfold ipPayload
  rw [ipRewrite_totalLength hp]
  unfold ipRewrite ipHeaderSize
  rw [seg_append_skip (k := 10) (by omega), seg_append_skip (k := 8) (by omega),
    seg_append_skip (k := 4) (by omega), seg_append_skip (k := 0) (by omega),
    seg_append_left (by omega), seg_all hn]

theorem ipRewrite_length {p q d npl : Bytes} (hp : 20 ≤ p.length) (hq : q.length = 4)
    (hd : d.length = 4) (hTL : ipTotalLength p ≤ p.length)
    (hTL2 : 20 ≤ ipTotalLength p) (hn : npl.length = ipTotalLength p - 20) :
    (ipRewrite p q d npl).length = p.length := by
  have hH : (seg p 0 10).length = 10 := seg_length (by omega)
  unfold ipRewrite
  simp only [List.length_append, hH, hq, hd, hn, be16Bytes_length, List.length_drop]
  omega

/- ## Reading back the rebuilt ICMP message -/

theorem icmpToReply_type (m : Bytes) : icmpTypeVal (icmpToReply m) = 0 := by
  unfold icmpTypeVal icmpToReply
  rw [byteAt_append_left (by simp)]
  rfl

theorem icmpToReply_checksumField (m : Bytes) :
    icmpChecksumField (icmpToReply m) = checksum16 (icmpZeroCk m) := by
  have h1 : ([0, byteAt m 1] : Bytes).length = 2 := rfl
  unfold icmpChecksumField icmpToReply
  rw [be16_append_skip (k := 0) (by omega), be16_first2 (be16Bytes_length _),
    be16_be16Bytes (checksum16_lt _)]

theorem icmpToReply_id (m : Bytes) : icmpId (icmpToReply m) = icmpId m := by
  have h1 : ([0, byteAt m 1] : Bytes).length = 2 := rfl
  have h2 : (be16Bytes (checksum16 (icmpZeroCk m))).length = 2 := be16Bytes_length _
  unfold icmpId icmpToReply
  rw [be16_append_skip (k := 2) (by omega), be16_append_skip (k := 0) (by omega), be16_drop]

theorem icmpToReply_seq (m : Bytes) : icmpSeq (icmpToReply m) = icmpSeq m := by
  have h1 : ([0, byteAt m 1] : Bytes).length = 2 := rfl
  have h2 : (be16Bytes (checksum16 (icmpZeroCk m))).length = 2 := be16Bytes_length _
  unfold icmpSeq icmpToReply
  rw [be16_append_skip (k := 4) (by omega), be16_append_skip (k := 2) (by omega), be16_drop]

theorem icmpToReply_payload (m : Bytes) :
    icmpEchoPayload (icmpToReply m) = icmpEchoPayload m := by
  have h1 : ([0, byteAt m 1] : Bytes).length = 2 := rfl
  have h2 : (be16Bytes (checksum16 (icmpZeroCk m))).length = 2 := be16Bytes_length _
  unfold icmpEchoPayload icmpToReply icmpHeaderSize
  rw [drop_append_skip (k := 6) (by omega), drop_append_skip (k := 4) (by omega),
    List.drop_drop]

theorem icmpToReply_length {m : Bytes} (hm : 4 ≤ m.length) :
    (icmpToReply m).length = m.length := by
  unfold icmpToReply
  simp only [List.length_append, be16Bytes_length, List.length_drop, List.length_cons,
    List.length_nil]
  omega

/- ## Reading back the rebuilt UDP packet -/

theorem udpEcho_sourcePort {u : Bytes} (hu : 8 ≤ u.length) :
    udpSourcePort (udpEcho u) = udpDestinationPort u := by
  have h1 : (seg u 2 2).length = 2 := seg_length (by omega)
  unfold udpSourcePort udpDestinationPort udpEcho
  rw [be16_first2 h1, be16_seg (by omega)]

theorem udpEcho_destinationPort {u : Bytes} (hu : 8 ≤ u.length) :
    udpDestinationPort (udpEcho u) = udpSourcePort u := by
  have h1 : (seg u 2 2).length = 2 := seg_length (by omega)
  have h2 : (seg u 0 2).length = 2 := seg_length (by omega)
  unfold udpSourcePort udpDestinationPort udpEcho
  rw [be16_append_skip (k := 0) (by omega), be16_first2 h2, be16_seg (by omega)]

theorem udpEcho_checksumField {u : Bytes} (hu : 8 ≤ u.length) :
    udpChecksumField (udpEcho u) = 0 := by
  have h1 : (seg u 2 2).length = 2 := seg_length (by omega)
  have h2 : (seg u 0 2).length = 2 := seg_length (by omega)
  have h3 : (seg u 4 2).length = 2 := seg_length (by omega)
  unfold udpChecksumField udpEcho
  rw [be16_append_skip (k := 4) (by omega), be16_append_skip (k := 2) (by omega),
    be16_append_skip (k := 0) (by omega), be16_first2 (by simp)]
  rfl

theorem udpEcho_length {u : Bytes} (hu : 8 ≤ u.length) : (udpEcho u).length = u.length := by
  have h1 : (seg u 2 2).length = 2 := seg_length (by omega)
  have h2 : (seg u 0 2).length = 2 := seg_length (by omega)
  have h3 : (seg u 4 2).length = 2 := seg_length (by omega)
  unfold udpEcho udpHeaderSize
  simp only [List.length_append, h1, h2, h3, List.length_drop, List.length_cons,
    List.length_nil]
  omega

/- ## Cache lemmas -/

/-- Well-formed cache: keys are 4-byte IPv4 addresses and values are
6-byte MAC addresses. -/
def cacheWF (c : Cache) : Prop := ∀ e ∈ c, e.1.length = 4 ∧ e.2.length = 6

theorem lookup_overwrite_self {c : Cache} {k v w : Bytes} (h : lookup c k = some w) :
    lookup (overwrite c k v) k = some v := by
  induction c with
  | nil => simp [lookup] at h
  | cons e rest ih =>
      obtain ⟨ek, ev⟩ := e
      by_cases hk : k = ek
      · simp [overwrite, lookup, hk]
      · simp [overwrite, lookup, hk] at h ⊢
        exact ih h

theorem lookup_append_new {c : Cache} {k v : Bytes} (h : lookup c k = none) :
    lookup (c ++ [(k, v)]) k = some v := by
  induction c with
  | nil => simp [lookup]
  | cons e rest ih =>
      obtain ⟨ek, ev⟩ := e
      by_cases hk : k = ek
      · simp [lookup, hk] at h
      · simp [lookup, hk] at h ⊢
        exact ih h

theorem lookup_cacheInsert_self {c : Cache} {k v : Bytes}
    (h : (lookup c k).isSome = true ∨ c.length < ARP_CACHE_SIZE) :
    lookup (cacheInsert c k v) k = some v := by
  unfold cacheInsert insertOrUpdate
  by_cases hs : (lookup c k).isSome = true
  · rw [if_pos hs]
    obtain ⟨w, hw⟩ := Option.isSome_iff_exists.mp hs
    exact lookup_overwrite_self hw
  · have hlt : c.length < ARP_CACHE_SIZE := h.resolve_left hs
    rw [if_neg hs, if_pos hlt]
    have hnone : lookup c k = none := Option.not_isSome_iff_eq_none.mp hs
    exact lookup_append_new hnone

theorem cacheInsert_full {c : Cache} {k v : Bytes} (h1 : lookup c k = none)
    (h2 : ARP_CACHE_SIZE ≤ c.length) :
    insertOrUpdate c k v = none ∧ cacheInsert c k v = c := by
  have hs : ¬ (lookup c k).isSome = true := by rw [h1]; simp
  have hlt : ¬ c.length < ARP_CACHE_SIZE := by omega
  constructor
  · unfold insertOrUpdate
    rw [if_neg hs, if_neg hlt]
  · unfold cacheInsert insertOrUpdate
    rw [if_neg hs, if_neg hlt]
    rfl

theorem lookup_of_mem_nodup {c : Cache} (hnd : (c.map Prod.fst).Nodup) {k v : Bytes}
    (h : (k, v) ∈ c) : lookup c k = some v := by
  induction c with
  | nil => simp at h
  | cons e rest ih =>
      obtain ⟨ek, ev⟩ := e
      simp only [List.map_cons, List.nodup_cons] at hnd
      rcases List.mem_cons.mp h with he | hrest
      · obtain ⟨h1, h2⟩ := Prod.ext_iff.mp he
        subst h1
        subst h2
        simp [lookup]
      · have hne : k ≠ ek := by
          intro hkk
          subst hkk
          exact hnd.1 (List.mem_map.mpr ⟨(k, v), hrest, rfl⟩)
        simp [lookup, hne]
        exact ih hnd.2 hrest

theorem lookup_WF {c : Cache} (hc : cacheWF c) {k v : Bytes} (h : lookup c k = some v) :
    v.length = 6 := by
  induction c with
  | nil => simp [lookup] at h
  | cons e rest ih =>
      obtain ⟨ek, ev⟩ := e
      by_cases hk : k = ek
      · simp [lookup, hk] at h
        exact h ▸ (hc (ek, ev) (by simp)).2
      · simp [lookup, hk] at h
        exact ih (fun e he => hc e (by simp [he])) h

theorem cacheWF_overwrite {c : Cache} {k v : Bytes} (hc : cacheWF c) (hv : v.length = 6) :
    cacheWF (overwrite c k v) := by
  induction c with
  | nil => intro e he; simp [overwrite] at he
  | cons e rest ih =>
      obtain ⟨ek, ev⟩ := e
      intro f hf
      by_cases hk : k = ek
      · simp [overwrite, hk] at hf
        rcases hf with hf | hf
        · subst hf
          exact ⟨(hc (ek, ev) (by simp)).1, hv⟩
        · exact hc f (by simp [hf])
      · simp [overwrite, hk] at hf
        rcases hf with hf | hf
        · subst hf
          exact hc (ek, ev) (by simp)
        · exact ih (fun e he => hc e (by simp [he])) f hf

theorem cacheWF_cacheInsert {c : Cache} {k v : Bytes} (hc : cacheWF c) (hk : k.length = 4)
    (hv : v.length = 6) : cacheWF (cacheInsert c k v) := by
  unfold cacheInsert insertOrUpdate
  by_cases hs : (lookup c k).isSome = true
  · rw [if_pos hs]
    exact cacheWF_overwrite hc hv
  · rw [if_neg hs]
    by_cases hlt : c.length < ARP_CACHE_SIZE
    · rw [if_pos hlt]
      intro e he
      rcases List.mem_append.mp he with he | he
      · exact hc e he
      · simp at he
        subst he
        exact ⟨hk, hv⟩
    · rw [if_neg hlt]
      exact hc

/- ## Branch-reduction lemmas for the dispatcher -/

theorem process_arp {bytes : Bytes} {cache : Cache} (h1 : ethParseOk bytes)
    (h2 : ethTypeVal bytes = etherTypeArp) :
    process bytes cache = handleArp bytes cache := by
  unfold process
  rw [if_pos h1, if_pos h2]

theorem process_ipv4 {bytes : Bytes} {cache : Cache} (h1 : ethParseOk bytes)
    (h2 : ethTypeVal bytes = etherTypeIpv4) :
    process bytes cache = handleIpv4 bytes cache := by
  unfold process
  rw [if_pos h1, if_neg (by rw [h2]; unfold etherTypeIpv4 etherTypeArp; omega), if_pos h2]

theorem handleArp_reply {bytes : Bytes} {cache : Cache}
    (h3 : arpParseOk (ethPayload bytes))
    (h45 : arpOper (ethPayload bytes) = 1 ∧ arpTpa (ethPayload bytes) = IP) :
    handleArp bytes cache =
      ⟨Action.arpReply,
       ethSet bytes (arpSha (ethPayload bytes)) MAC (arpReplyPayload (ethPayload bytes)),
       if arpIsProbe (ethPayload bytes) then cache
       else cacheInsert cache (arpSpa (ethPayload bytes)) (arpSha (ethPayload bytes))⟩ := by
  simp only [handleArp]
  rw [if_pos h3, if_pos h45]

theorem handleArp_cache {bytes : Bytes} {cache : Cache}
    (h3 : arpParseOk (ethPayload bytes)) :
    (handleArp bytes cache).cache =
      (if arpIsProbe (ethPayload bytes) then cache
       else cacheInsert cache (arpSpa (ethPayload bytes)) (arpSha (ethPayload bytes))) := by
  simp only [handleArp]
  rw [if_pos h3]
  split
  · rfl
  · rfl

theorem handleIpv4_icmp {bytes : Bytes} {cache : Cache}
    (h3 : ipParseOk (ethPayload bytes)) (h4 : ipProtocol (ethPayload bytes) = protoIcmp) :
    handleIpv4 bytes cache =
      handleIcmp bytes (ethPayload bytes) (ipSource (ethPayload bytes))
        (ipv4CacheAfterInsert bytes cache) := by
  simp only [handleIpv4]
  rw [if_pos h3, if_pos h4]

theorem handleIpv4_udp {bytes : Bytes} {cache : Cache}
    (h3 : ipParseOk (ethPayload bytes)) (h4 : ipProtocol (ethPayload bytes) = protoUdp) :
    handleIpv4 bytes cache =
      handleUdp bytes (ethPayload bytes) (ipSource (ethPayload bytes))
        (ipv4CacheAfterInsert bytes cache) := by
  simp only [handleIpv4]
  rw [if_pos h3, if_neg (by rw [h4]; unfold protoUdp protoIcmp; omega), if_pos h4]

theorem handleIcmp_reply {bytes p srcIp : Bytes} {cache1 : Cache} {m : Bytes}
    (h5 : icmpParseOk (ipPayload p)) (h6 : icmpTypeVal (ipPayload p) = icmpEchoRequest)
    (hlk : lookup cache1 srcIp = some m) :
    handleIcmp bytes p srcIp cache1 =
      ⟨Action.echoReply, ethSet bytes m MAC (ipRewrite p IP srcIp (icmpToReply (ipPayload p))),
       cache1⟩ := by
  simp only [handleIcmp]
  rw [if_pos h5, if_pos h6, hlk]

theorem handleIcmp_nop {bytes p srcIp : Bytes} {cache1 : Cache}
    (hlk : lookup cache1 srcIp = none) :
    handleIcmp bytes p srcIp cache1 = ⟨Action.nop, bytes, cache1⟩ := by
  simp only [handleIcmp]
  by_cases h5 : icmpParseOk (ipPayload p)
  · rw [if_pos h5]
    by_cases h6 : icmpTypeVal (ipPayload p) = icmpEchoRequest
    · rw [if_pos h6, hlk]
    · rw [if_neg h6]
  · rw [if_neg h5]

theorem handleUdp_reply {bytes p srcIp : Bytes} {cache1 : Cache} {m : Bytes}
    (h5 : udpParseOk (ipPayload p)) (hlk : lookup cache1 srcIp = some m) :
    handleUdp bytes p srcIp cache1 =
      ⟨Action.udpReply, ethSet bytes m MAC (ipRewrite p IP srcIp (udpEcho (ipPayload p))),
       cache1⟩ := by
  simp only [handleUdp]
  rw [if_pos h5, hlk]

theorem handleUdp_nop {bytes p srcIp : Bytes} {cache1 : Cache}
    (hlk : lookup cache1 srcIp = none) :
    handleUdp bytes p srcIp cache1 = ⟨Action.nop, bytes, cache1⟩ := by
  simp only [handleUdp]
  by_cases h5 : udpParseOk (ipPayload p)
  · rw [if_pos h5, hlk]
  · rw [if_neg h5]

/- ## Concrete example packets and caches -/

/-- An ARP request for 192.168.1.33 from 192.168.1.100 (MAC 02:02:02:02:02:02). -/
def exampleArpRequest : Bytes :=
  [0x20, 0x19, 0x01, 0x30, 0x23, 0x59, 2, 2, 2, 2, 2, 2, 8, 6,
   0, 1, 8, 0, 6, 4, 0, 1, 2, 2, 2, 2, 2, 2, 192, 168, 1, 100,
   0, 0, 0, 0, 0, 0, 192, 168, 1, 33]

/-- An ICMP Echo Request for 192.168.1.33 from 192.168.1.100
(identifier 0, sequence 7, payload [0, 3] is the trailing id/seq lane). -/
def exampleEchoRequest : Bytes :=
  [0x20, 0x19, 0x01, 0x30, 0x23, 0x59, 2, 2, 2, 2, 2, 2, 8, 0,
   0x45, 0, 0, 28, 0, 0, 0, 0, 64, 1, 0, 0, 192, 168, 1, 100, 192, 168, 1, 33,
   8, 0, 0, 0, 0, 7, 0, 3]

/-- The same Echo Request sent from the broadcast source MAC. -/
def exampleEchoRequestBcast : Bytes :=
  [0x20, 0x19, 0x01, 0x30, 0x23, 0x59, 255, 255, 255, 255, 255, 255, 8, 0,
   0x45, 0, 0, 28, 0, 0, 0, 0, 64, 1, 0, 0, 192, 168, 1, 100, 192, 168, 1, 33,
   8, 0, 0, 0, 0, 7, 0, 3]

/-- A UDP packet for 192.168.1.33 from 192.168.1.100, ports 53 → 1337,
payload "hi!". -/
def exampleUdpPacket : Bytes :=
  [0x20, 0x19, 0x01, 0x30, 0x23, 0x59, 2, 2, 2, 2, 2, 2, 8, 0,
   0x45, 0, 0, 31, 0, 0, 0, 0, 64, 17, 0, 0, 192, 168, 1, 100, 192, 168, 1, 33,
   0, 53, 5, 57, 0, 11, 0, 0, 104, 105, 33]

/-- A full cache: 8 distinct IPv4 keys. -/
def exampleFullCache : Cache :=
  [([10, 0, 0, 1], [1, 1, 1, 1, 1, 1]), ([10, 0, 0, 2], [2, 2, 2, 2, 2, 2]),
   ([10, 0, 0, 3], [3, 3, 3, 3, 3, 3]), ([10, 0, 0, 4], [4, 4, 4, 4, 4, 4]),
   ([10, 0, 0, 5], [5, 5, 5, 5, 5, 5]), ([10, 0, 0, 6], [6, 6, 6, 6, 6, 6]),
   ([10, 0, 0, 7], [7, 7, 7, 7, 7, 7]), ([10, 0, 0, 8], [8, 8, 8, 8, 8, 8])]

/- ## Claims -/

/-- C1: for every buffer that parses as a well-formed IPv4-over-Ethernet
ARP Request with tpa equal to the device IP, `process` returns ArpReply
whose frame has Ethernet destination = the request's sender MAC (sha),
Ethernet source = device MAC, ARP operation = Reply, sha = device MAC,
spa = device IP, tha = the original sha, tpa = the original spa, and the
frame's byte length equals the input buffer's length. -/
theorem claim1_arp_request_reply (bytes : Bytes) (cache : Cache)
    (h1 : ethParseOk bytes) (h2 : ethTypeVal bytes = etherTypeArp)
    (h3 : arpParseOk (ethPayload bytes))
    (h4 : arpOper (ethPayload bytes) = 1) (h5 : arpTpa (ethPayload bytes) = IP) :
    (process bytes cache).action = Action.arpReply ∧
    ethDestination ((process bytes cache).buffer) = arpSha (ethPayload bytes) ∧
    ethSource ((process bytes cache).buffer) = MAC ∧
    arpOper (ethPayload ((process bytes cache).buffer)) = 2 ∧
    arpSha (ethPayload ((process bytes cache).buffer)) = MAC ∧
    arpSpa (ethPayload ((process bytes cache).buffer)) = IP ∧
    arpTha (ethPayload ((process bytes cache).buffer)) = arpSha (ethPayload bytes) ∧
    arpTpa (ethPayload ((process bytes cache).buffer)) = arpSpa (ethPayload bytes) ∧
    ((process bytes cache).buffer).length = bytes.length := by
  have hb : 14 ≤ bytes.length := h1
  have hp28 : 28 ≤ (ethPayload bytes).length := h3.1
  have hsha : (arpSha (ethPayload bytes)).length = 6 := seg_length (by omega)
  have hplen : (ethPayload bytes).length = bytes.length - 14 := List.length_drop ..
  have hred : process bytes cache =
      ⟨Action.arpReply,
       ethSet bytes (arpSha (ethPayload bytes)) MAC (arpReplyPayload (ethPayload bytes)),
       if arpIsProbe (ethPayload bytes) then cache
       else cacheInsert cache (arpSpa (ethPayload bytes)) (arpSha (ethPayload bytes))⟩ := by
    rw [process_arp h1 h2, handleArp_reply h3 ⟨h4, h5⟩]
  rw [hred]
  refine ⟨rfl, ?_, ?_, ?_, ?_, ?_, ?_, ?_, ?_⟩
  · exact ethSet_destination hsha
  · exact ethSet_source hsha MAC_length
  · rw [ethSet_payload hsha MAC_length hb]
    exact arpReplyPayload_oper hp28
  · rw [ethSet_payload hsha MAC_length hb]
    exact arpReplyPayload_sha hp28
  · rw [ethSet_payload hsha MAC_length hb]
    exact arpReplyPayload_spa hp28
  · rw [ethSet_payload hsha MAC_length hb]
    exact arpReplyPayload_tha hp28
  · rw [ethSet_payload hsha MAC_length hb]
    exact arpReplyPayload_tpa hp28
  · rw [ethSet_length hsha MAC_length hb, arpReplyPayload_length hp28]
    omega

/-- C1 witness: the theorem applied to a concrete ARP request and the
empty cache. -/
theorem claim1_witness :
    (process exampleArpRequest []).action = Action.arpReply :=
  (claim1_arp_request_reply exampleArpRequest [] (by decide) (by decide) (by decide)
    (by decide) (by decide)).1

/-- C8: for every buffer shorter than the minimum Ethernet header size,
`process` returns NoAction and leaves the buffer and the cache unchanged;
the embedding guards the length before any byte is inspected, so no
access outside the buffer occurs. -/
theorem claim8_truncated_buffer (bytes : Bytes) (cache : Cache)
    (h : bytes.length < ethHeaderSize) :
    process bytes cache = ⟨Action.nop, bytes, cache⟩ := by
  unfold process
  rw [if_neg]
  intro hok
  have : ethHeaderSize ≤ bytes.length := hok
  omega

/-- C8 witness: a 5-byte buffer is rejected without touching the cache. -/
theorem claim8_witness :
    process [1, 2, 3, 4, 5] exampleFullCache = ⟨Action.nop, [1, 2, 3, 4, 5], exampleFullCache⟩ :=
  claim8_truncated_buffer [1, 2, 3, 4, 5] exampleFullCache (by decide)

/-- C9: `process` is deterministic — two calls on equal buffer contents
and equal cache contents produce equal actions, equal final buffers and
equal final caches (the embedding has no other inputs; the firmware's
logging is not part of the state). -/
theorem claim9_deterministic (b1 b2 : Bytes) (c1 c2 : Cache) (hb : b1 = b2) (hc : c1 = c2) :
    process b1 c1 = process b2 c2 := by
  rw [hb, hc]

/-- C9 witness: the determinism theorem applied at a concrete input. -/
theorem claim9_witness :
    process exampleArpRequest [] = process exampleArpRequest [] :=
  claim9_deterministic exampleArpRequest exampleArpRequest [] [] rfl rfl

/-- C4: for every buffer that parses as a well-formed IPv4-over-Ethernet
ARP packet: if spa = 0.0.0.0 (a probe) the cache is unchanged; otherwise
the cache afterwards maps spa to sha (for any operation) whenever spa was
already a key or the cache had room, and when the cache is at capacity
with spa a new key the cache is unchanged. -/
theorem claim4_arp_cache_update (bytes : Bytes) (cache : Cache)
    (h1 : ethParseOk bytes) (h2 : ethTypeVal bytes = etherTypeArp)
    (h3 : arpParseOk (ethPayload bytes)) :
    (arpIsProbe (ethPayload bytes) → (process bytes cache).cache = cache) ∧
    (¬ arpIsProbe (ethPayload bytes) →
      (((lookup cache (arpSpa (ethPayload bytes))).isSome = true ∨
          cache.length < ARP_CACHE_SIZE) →
        lookup ((process bytes cache).cache) (arpSpa (ethPayload bytes)) =
          some (arpSha (ethPayload bytes))) ∧
      (lookup cache (arpSpa (ethPayload bytes)) = none → ARP_CACHE_SIZE ≤ cache.length →
        (process bytes cache).cache = cache)) := by
  have hc : (process bytes cache).cache =
      (if arpIsProbe (ethPayload bytes) then cache
       else cacheInsert cache (arpSpa (ethPayload bytes)) (arpSha (ethPayload bytes))) := by
    rw [process_arp h1 h2]
    exact handleArp_cache h3
  constructor
  · intro hpr
    rw [hc, if_pos hpr]
  · intro hnpr
    constructor
    · intro hroom
      rw [hc, if_neg hnpr]
      exact lookup_cacheInsert_self hroom
    · intro hnone hfull
      rw [hc, if_neg hnpr]
      exact (cacheInsert_full hnone hfull).2

/-- C4 witness: the non-probe ARP request populates the empty cache with
(spa → sha). -/
theorem claim4_witness :
    lookup ((process exampleArpRequest []).cache) (arpSpa (ethPayload exampleArpRequest)) =
      some (arpSha (ethPayload exampleArpRequest)) :=
  ((claim4_arp_cache_update exampleArpRequest [] (by decide) (by decide) (by decide)).2
    (by decide)).1 (Or.inr (by decide))

/-- C5: with the cache holding exactly its capacity of 8 distinct keys,
inserting a fresh key fails and leaves the cache unchanged with every
existing entry still found by lookup, while inserting an existing key
succeeds and overwrites that key's value. -/
theorem claim5_cache_at_capacity (c : Cache) (k v k' w v' : Bytes)
    (hlen : c.length = ARP_CACHE_SIZE) (hnd : (c.map Prod.fst).Nodup)
    (habs : lookup c k = none) (hpres : lookup c k' = some w) :
    insertOrUpdate c k v = none ∧
    cacheInsert c k v = c ∧
    (∀ e ∈ c, lookup (cacheInsert c k v) e.1 = some e.2) ∧
    insertOrUpdate c k' v' = some (overwrite c k' v') ∧
    lookup (overwrite c k' v') k' = some v' := by
  have hfull := cacheInsert_full (v := v) habs (by omega)
  refine ⟨hfull.1, hfull.2, ?_, ?_, ?_⟩
  · intro e he
    rw [hfull.2]
    exact lookup_of_mem_nodup hnd (by rw [Prod.mk.eta]; exact he)
  · unfold insertOrUpdate
    rw [if_pos (by rw [hpres]; rfl)]
  · exact lookup_overwrite_self hpres

/-- C5 witness: the theorem applied to a concrete full cache, a fresh key
10.0.0.9 and the existing key 10.0.0.1. -/
theorem claim5_witness :
    insertOrUpdate exampleFullCache [10, 0, 0, 9] [9, 9, 9, 9, 9, 9] = none ∧
    cacheInsert exampleFullCache [10, 0, 0, 9] [9, 9, 9, 9, 9, 9] = exampleFullCache ∧
    insertOrUpdate exampleFullCache [10, 0, 0, 1] [42, 42, 42, 42, 42, 42] =
      some (overwrite exampleFullCache [10, 0, 0, 1] [42, 42, 42, 42, 42, 42]) ∧
    lookup (overwrite exampleFullCache [10, 0, 0, 1] [42, 42, 42, 42, 42, 42]) [10, 0, 0, 1] =
      some [42, 42, 42, 42, 42, 42] := by
  have h := claim5_cache_at_capacity exampleFullCache [10, 0, 0, 9] [9, 9, 9, 9, 9, 9]
    [10, 0, 0, 1] [1, 1, 1, 1, 1, 1] [42, 42, 42, 42, 42, 42]
    (by decide) (by decide) (by decide) (by decide)
  exact ⟨h.1, h.2.1, h.2.2.2.1, h.2.2.2.2⟩

theorem cacheWF_ipv4CacheAfterInsert {bytes : Bytes} {cache : Cache} (hwf : cacheWF cache)
    (h1 : ethParseOk bytes) (h3 : ipParseOk (ethPayload bytes)) :
    cacheWF (ipv4CacheAfterInsert bytes cache) := by
  have hb : 14 ≤ bytes.length := h1
  have hp20 : 20 ≤ (ethPayload bytes).length := h3.1
  have hpl : (ethPayload bytes).length = bytes.length - 14 := List.length_drop ..
  unfold ipv4CacheAfterInsert
  split
  · exact hwf
  · exact cacheWF_cacheInsert hwf (seg_length (by omega)) (seg_length (by omega))

/-- C2: for every buffer that parses as a well-formed Ethernet/IPv4/ICMP
Echo Request whose source IP is present in the cache at lookup time (the
cache after the handler's opportunistic insert), `process` returns
EchoReply preserving the ICMP identifier, sequence number and payload
bytes, with IPv4 source = device IP, IPv4 destination = the request's
source IP, Ethernet destination = the cached MAC and Ethernet source =
the device MAC. -/
theorem claim2_echo_reply (bytes : Bytes) (cache : Cache) (m : Bytes) (hwf : cacheWF cache)
    (h1 : ethParseOk bytes) (h2 : ethTypeVal bytes = etherTypeIpv4)
    (h3 : ipParseOk (ethPayload bytes)) (h4 : ipProtocol (ethPayload bytes) = protoIcmp)
    (h5 : icmpParseOk (ipPayload (ethPayload bytes)))
    (h6 : icmpTypeVal (ipPayload (ethPayload bytes)) = icmpEchoRequest)
    (h7 : lookup (ipv4CacheAfterInsert bytes cache) (ipSource (ethPayload bytes)) = some m) :
    (process bytes cache).action = Action.echoReply ∧
    icmpId (ipPayload (ethPayload ((process bytes cache).buffer))) =
      icmpId (ipPayload (ethPayload bytes)) ∧
    icmpSeq (ipPayload (ethPayload ((process bytes cache).buffer))) =
      icmpSeq (ipPayload (ethPayload bytes)) ∧
    icmpEchoPayload (ipPayload (ethPayload ((process bytes cache).buffer))) =
      icmpEchoPayload (ipPayload (ethPayload bytes)) ∧
    ipSource (ethPayload ((process bytes cache).buffer)) = IP ∧
    ipDestination (ethPayload ((process bytes cache).buffer)) = ipSource (ethPayload bytes) ∧
    ethDestination ((process bytes cache).buffer) = m ∧
    ethSource ((process bytes cache).buffer) = MAC := by
  have hb : 14 ≤ bytes.length := h1
  have hp20 : 20 ≤ (ethPayload bytes).length := h3.1
  have hTL1 : 20 ≤ ipTotalLength (ethPayload bytes) := h3.2.2.1
  have hTL2 : ipTotalLength (ethPayload bytes) ≤ (ethPayload bytes).length := h3.2.2.2
  have hm6 : m.length = 6 := lookup_WF (cacheWF_ipv4CacheAfterInsert hwf h1 h3) h7
  have hsrc4 : (ipSource (ethPayload bytes)).length = 4 := seg_length (by omega)
  have hicmp8 : 8 ≤ (ipPayload (ethPayload bytes)).length := h5
  have hih : ipHeaderSize = 20 := rfl
  have hmlen : (ipPayload (ethPayload bytes)).length = ipTotalLength (ethPayload bytes) - 20 := by
    unfold ipPayload
    rw [hih]
    exact seg_length (by omega)
  have hnpl : (icmpToReply (ipPayload (ethPayload bytes))).length =
      ipTotalLength (ethPayload bytes) - 20 := by
    rw [icmpToReply_length (by omega)]
    exact hmlen
  have hred : process bytes cache =
      ⟨Action.echoReply,
       ethSet bytes m MAC (ipRewrite (ethPayload bytes) IP (ipSource (ethPayload bytes))
         (icmpToReply (ipPayload (ethPayload bytes)))),
       ipv4CacheAfterInsert bytes cache⟩ := by
    rw [process_ipv4 h1 h2, handleIpv4_icmp h3 h4, handleIcmp_reply h5 h6 h7]
  rw [hred]
  have hebuf : ethPayload (ethSet bytes m MAC (ipRewrite (ethPayload bytes) IP
      (ipSource (ethPayload bytes)) (icmpToReply (ipPayload (ethPayload bytes))))) =
      ipRewrite (ethPayload bytes) IP (ipSource (ethPayload bytes))
        (icmpToReply (ipPayload (ethPayload bytes))) :=
    ethSet_payload hm6 MAC_length hb
  refine ⟨rfl, ?_, ?_, ?_, ?_, ?_, ?_, ?_⟩
  · rw [show (Result.mk Action.echoReply (ethSet bytes m MAC (ipRewrite (ethPayload bytes) IP
      (ipSource (ethPayload bytes)) (icmpToReply (ipPayload (ethPayload bytes)))))
      (ipv4CacheAfterInsert bytes cache)).buffer = ethSet bytes m MAC (ipRewrite
      (ethPayload bytes) IP (ipSource (ethPayload bytes))
      (icmpToReply (ipPayload (ethPayload bytes)))) from rfl, hebuf,
      ipRewrite_payload hp20 IP_length hsrc4 hnpl, icmpToReply_id]
  · rw [show (Result.mk Action.echoReply (ethSet bytes m MAC (ipRewrite (ethPayload bytes) IP
      (ipSource (ethPayload bytes)) (icmpToReply (ipPayload (ethPayload bytes)))))
      (ipv4CacheAfterInsert bytes cache)).buffer = ethSet bytes m MAC (ipRewrite
      (ethPayload bytes) IP (ipSource (ethPayload bytes))
      (icmpToReply (ipPayload (ethPayload bytes)))) from rfl, hebuf,
      ipRewrite_payload hp20 IP_length hsrc4 hnpl, icmpToReply_seq]
  · rw [show (Result.mk Action.echoReply (ethSet bytes m MAC (ipRewrite (ethPayload bytes) IP
      (ipSource (ethPayload bytes)) (icmpToReply (ipPayload (ethPayload bytes)))))
      (ipv4CacheAfterInsert bytes cache)).buffer = ethSet bytes m MAC (ipRewrite
      (ethPayload bytes) IP (ipSource (ethPayload bytes))
      (icmpToReply (ipPayload (ethPayload bytes)))) from rfl, hebuf,
      ipRewrite_payload hp20 IP_length hsrc4 hnpl, icmpToReply_payload]
  · rw [show (Result.mk Action.echoReply (ethSet bytes m MAC (ipRewrite (ethPayload bytes) IP
      (ipSource (ethPayload bytes)) (icmpToReply (ipPayload (ethPayload bytes)))))
      (ipv4CacheAfterInsert bytes cache)).buffer = ethSet bytes m MAC (ipRewrite
      (ethPayload bytes) IP (ipSource (ethPayload bytes))
      (icmpToReply (ipPayload (ethPayload bytes)))) from rfl, hebuf]
    exact ipRewrite_source hp20 IP_length
  · rw [show (Result.mk Action.echoReply (ethSet bytes m MAC (ipRewrite (ethPayload bytes) IP
      (ipSource (ethPayload bytes)) (icmpToReply (ipPayload (ethPayload bytes)))))
      (ipv4CacheAfterInsert bytes cache)).buffer = ethSet bytes m MAC (ipRewrite
      (ethPayload bytes) IP (ipSource (ethPayload bytes))
      (icmpToReply (ipPayload (ethPayload bytes)))) from rfl, hebuf]
    exact ipRewrite_destination hp20 IP_length hsrc4
  · exact ethSet_destination hm6
  · exact ethSet_source hm6 MAC_length

/-- C2 witness: a concrete Echo Request from 192.168.1.100, whose MAC the
handler has just inserted, gets an Echo Reply. -/
theorem claim2_witness :
    (process exampleEchoRequest []).action = Action.echoReply :=
  (claim2_echo_reply exampleEchoRequest [] [2, 2, 2, 2, 2, 2]
    (by intro e he; simp at he) (by decide) (by decide) (by decide) (by decide)
    (by decide) (by decide) (by decide)).1

/-- C6: for every buffer that parses as a well-formed Ethernet/IPv4/UDP
packet whose source IP is present in the cache at lookup time, `process`
returns UdpReply with the UDP ports swapped, the UDP checksum field 0,
IPv4 source = device IP and destination = the request's source IP with
the header checksum recomputed, Ethernet destination = the cached MAC and
Ethernet source = the device MAC. -/
theorem claim6_udp_reply (bytes : Bytes) (cache : Cache) (m : Bytes) (hwf : cacheWF cache)
    (h1 : ethParseOk bytes) (h2 : ethTypeVal bytes = etherTypeIpv4)
    (h3 : ipParseOk (ethPayload bytes)) (h4 : ipProtocol (ethPayload bytes) = protoUdp)
    (h5 : udpParseOk (ipPayload (ethPayload bytes)))
    (h7 : lookup (ipv4CacheAfterInsert bytes cache) (ipSource (ethPayload bytes)) = some m) :
    (process bytes cache).action = Action.udpReply ∧
    udpSourcePort (ipPayload (ethPayload ((process bytes cache).buffer))) =
      udpDestinationPort (ipPayload (ethPayload bytes)) ∧
    udpDestinationPort (ipPayload (ethPayload ((process bytes cache).buffer))) =
      udpSourcePort (ipPayload (ethPayload bytes)) ∧
    udpChecksumField (ipPayload (ethPayload ((process bytes cache).buffer))) = 0 ∧
    ipSource (ethPayload ((process bytes cache).buffer)) = IP ∧
    ipDestination (ethPayload ((process bytes cache).buffer)) = ipSource (ethPayload bytes) ∧
    ipChecksumField (ethPayload ((process bytes cache).buffer)) =
      checksum16 (ipHeaderZeroCk (ethPayload bytes) IP (ipSource (ethPayload bytes))) ∧
    ethDestination ((process bytes cache).buffer) = m ∧
    ethSource ((process bytes cache).buffer) = MAC := by
  have hb : 14 ≤ bytes.length := h1
  have hp20 : 20 ≤ (ethPayload bytes).length := h3.1
  have hTL1 : 20 ≤ ipTotalLength (ethPayload bytes) := h3.2.2.1
  have hTL2 : ipTotalLength (ethPayload bytes) ≤ (ethPayload bytes).length := h3.2.2.2
  have hm6 : m.length = 6 := lookup_WF (cacheWF_ipv4CacheAfterInsert hwf h1 h3) h7
  have hsrc4 : (ipSource (ethPayload bytes)).length = 4 := seg_length (by omega)
  have hudp8 : 8 ≤ (ipPayload (ethPayload bytes)).length := h5
  have hih : ipHeaderSize = 20 := rfl
  have hmlen : (ipPayload (ethPayload bytes)).length = ipTotalLength (ethPayload bytes) - 20 := by
    unfold ipPayload
    rw [hih]
    exact seg_length (by omega)
  have hnpl : (udpEcho (ipPayload (ethPayload bytes))).length =
      ipTotalLength (ethPayload bytes) - 20 := by
    rw [udpEcho_length hudp8]
    exact hmlen
  have hred : process bytes cache =
      ⟨Action.udpReply,
       ethSet bytes m MAC (ipRewrite (ethPayload bytes) IP (ipSource (ethPayload bytes))
         (udpEcho (ipPayload (ethPayload bytes)))),
       ipv4CacheAfterInsert bytes cache⟩ := by
    rw [process_ipv4 h1 h2, handleIpv4_udp h3 h4, handleUdp_reply h5 h7]
  rw [hred]
  have hebuf : ethPayload (ethSet bytes m MAC (ipRewrite (ethPayload bytes) IP
      (ipSource (ethPayload bytes)) (udpEcho (ipPayload (ethPayload bytes))))) =
      ipRewrite (ethPayload bytes) IP (ipSource (ethPayload bytes))
        (udpEcho (ipPayload (ethPayload bytes))) :=
    ethSet_payload hm6 MAC_length hb
  refine ⟨rfl, ?_, ?_, ?_, ?_, ?_, ?_, ?_, ?_⟩
  · rw [show (Result.mk Action.udpReply (ethSet bytes m MAC (ipRewrite (ethPayload bytes) IP
      (ipSource (ethPayload bytes)) (udpEcho (ipPayload (ethPayload bytes)))))
      (ipv4CacheAfterInsert bytes cache)).buffer = ethSet bytes m MAC (ipRewrite
      (ethPayload bytes) IP (ipSource (ethPayload bytes))
      (udpEcho (ipPayload (ethPayload bytes)))) from rfl, hebuf,
      ipRewrite_payload hp20 IP_length hsrc4 hnpl]
    exact udpEcho_sourcePort hudp8
  · rw [show (Result.mk Action.udpReply (ethSet bytes m MAC (ipRewrite (ethPayload bytes) IP
      (ipSource (ethPayload bytes)) (udpEcho (ipPayload (ethPayload bytes)))))
      (ipv4CacheAfterInsert bytes cache)).buffer = ethSet bytes m MAC (ipRewrite
      (ethPayload bytes) IP (ipSource (ethPayload bytes))
      (udpEcho (ipPayload (ethPayload bytes)))) from rfl, hebuf,
      ipRewrite_payload hp20 IP_length hsrc4 hnpl]
    exact udpEcho_destinationPort hudp8
  · rw [show (Result.mk Action.udpReply (ethSet bytes m MAC (ipRewrite (ethPayload bytes) IP
      (ipSource (ethPayload bytes)) (udpEcho (ipPayload (ethPayload bytes)))))
      (ipv4CacheAfterInsert bytes cache)).buffer = ethSet bytes m MAC (ipRewrite
      (ethPayload bytes) IP (ipSource (ethPayload bytes))
      (udpEcho (ipPayload (ethPayload bytes)))) from rfl, hebuf,
      ipRewrite_payload hp20 IP_length hsrc4 hnpl]
    exact udpEcho_checksumField hudp8
  · rw [show (Result.mk Action.udpReply (ethSet bytes m MAC (ipRewrite (ethPayload bytes) IP
      (ipSource (ethPayload bytes)) (udpEcho (ipPayload (ethPayload bytes)))))
      (ipv4CacheAfterInsert bytes cache)).buffer = ethSet bytes m MAC (ipRewrite
      (ethPayload bytes) IP (ipSource (ethPayload bytes))
      (udpEcho (ipPayload (ethPayload bytes)))) from rfl, hebuf]
    exact ipRewrite_source hp20 IP_length
  · rw [show (Result.mk Action.udpReply (ethSet bytes m MAC (ipRewrite (ethPayload bytes) IP
      (ipSource (ethPayload bytes)) (udpEcho (ipPayload (ethPayload bytes)))))
      (ipv4CacheAfterInsert bytes cache)).buffer = ethSet bytes m MAC (ipRewrite
      (ethPayload bytes) IP (ipSource (ethPayload bytes))
      (udpEcho (ipPayload (ethPayload bytes)))) from rfl, hebuf]
    exact ipRewrite_destination hp20 IP_length hsrc4
  · rw [show (Result.mk Action.udpReply (ethSet bytes m MAC (ipRewrite (ethPayload bytes) IP
      (ipSource (ethPayload bytes)) (udpEcho (ipPayload (ethPayload bytes)))))
      (ipv4CacheAfterInsert bytes cache)).buffer = ethSet bytes m MAC (ipRewrite
      (ethPayload bytes) IP (ipSource (ethPayload bytes))
      (udpEcho (ipPayload (ethPayload bytes)))) from rfl, hebuf]
    exact ipRewrite_checksumField hp20
  · exact ethSet_destination hm6
  · exact ethSet_source hm6 MAC_length

/-- C6 witness: a concrete UDP packet from 192.168.1.100 is echoed back
with the ports swapped. -/
theorem claim6_witness :
    (process exampleUdpPacket []).action = Action.udpReply :=
  (claim6_udp_reply exampleUdpPacket [] [2, 2, 2, 2, 2, 2]
    (by intro e he; simp at he) (by decide) (by decide) (by decide) (by decide)
    (by decide) (by decide)).1

/-- C7: for every valid Ethernet/IPv4/ICMP Echo Request buffer on which
`process` returns EchoReply, reparsing the resulting buffer as Ethernet,
then IPv4, then ICMP succeeds and yields an Echo Reply whose payload
bytes equal the request's payload bytes. -/
theorem claim7_roundtrip (bytes : Bytes) (cache : Cache) (hwf : cacheWF cache)
    (h1 : ethParseOk bytes) (h2 : ethTypeVal bytes = etherTypeIpv4)
    (h3 : ipParseOk (ethPayload bytes)) (h4 : ipProtocol (ethPayload bytes) = protoIcmp)
    (h5 : icmpParseOk (ipPayload (ethPayload bytes)))
    (h6 : icmpTypeVal (ipPayload (ethPayload bytes)) = icmpEchoRequest)
    (ha : (process bytes cache).action = Action.echoReply) :
    ethParseOk ((process bytes cache).buffer) ∧
    ethTypeVal ((process bytes cache).buffer) = etherTypeIpv4 ∧
    ipParseOk (ethPayload ((process bytes cache).buffer)) ∧
    ipProtocol (ethPayload ((process bytes cache).buffer)) = protoIcmp ∧
    icmpParseOk (ipPayload (ethPayload ((process bytes cache).buffer))) ∧
    icmpTypeVal (ipPayload (ethPayload ((process bytes cache).buffer))) = icmpEchoReply ∧
    icmpEchoPayload (ipPayload (ethPayload ((process bytes cache).buffer))) =
      icmpEchoPayload (ipPayload (ethPayload bytes)) := by
  have hb : 14 ≤ bytes.length := h1
  have hp20 : 20 ≤ (ethPayload bytes).length := h3.1
  have hTL1 : 20 ≤ ipTotalLength (ethPayload bytes) := h3.2.2.1
  have hTL2 : ipTotalLength (ethPayload bytes) ≤ (ethPayload bytes).length := h3.2.2.2
  have hicmp8 : 8 ≤ (ipPayload (ethPayload bytes)).length := h5
  have hih : ipHeaderSize = 20 := rfl
  have hmlen : (ipPayload (ethPayload bytes)).length = ipTotalLength (ethPayload bytes) - 20 := by
    unfold ipPayload
    rw [hih]
    exact seg_length (by omega)
  have hnpl : (icmpToReply (ipPayload (ethPayload bytes))).length =
      ipTotalLength (ethPayload bytes) - 20 := by
    rw [icmpToReply_length (by omega)]
    exact hmlen
  obtain ⟨m, h7⟩ : ∃ m, lookup (ipv4CacheAfterInsert bytes cache)
      (ipSource (ethPayload bytes)) = some m := by
    match hlk : lookup (ipv4CacheAfterInsert bytes cache) (ipSource (ethPayload bytes)) with
    | some m => exact ⟨m, rfl⟩
    | none =>
        rw [process_ipv4 h1 h2, handleIpv4_icmp h3 h4, handleIcmp_nop hlk] at ha
        simp at ha
  have hm6 : m.length = 6 := lookup_WF (cacheWF_ipv4CacheAfterInsert hwf h1 h3) h7
  have hsrc4 : (ipSource (ethPayload bytes)).length = 4 := seg_length (by omega)
  have hred : process bytes cache =
      ⟨Action.echoReply,
       ethSet bytes m MAC (ipRewrite (ethPayload bytes) IP (ipSource (ethPayload bytes))
         (icmpToReply (ipPayload (ethPayload bytes)))),
       ipv4CacheAfterInsert bytes cache⟩ := by
    rw [process_ipv4 h1 h2, handleIpv4_icmp h3 h4, handleIcmp_reply h5 h6 h7]
  rw [hred]
  have hebuf : ethPayload (ethSet bytes m MAC (ipRewrite (ethPayload bytes) IP
      (ipSource (ethPayload bytes)) (icmpToReply (ipPayload (ethPayload bytes))))) =
      ipRewrite (ethPayload bytes) IP (ipSource (ethPayload bytes))
        (icmpToReply (ipPayload (ethPayload bytes))) :=
    ethSet_payload hm6 MAC_length hb
  have hiplen : (ipRewrite (ethPayload bytes) IP (ipSource (ethPayload bytes))
      (icmpToReply (ipPayload (ethPayload bytes)))).length = (ethPayload bytes).length :=
    ipRewrite_length hp20 IP_length hsrc4 hTL2 hTL1 hnpl
  refine ⟨?_, ?_, ?_, ?_, ?_, ?_, ?_⟩
  · show ethHeaderSize ≤ _
    rw [show (Result.mk Action.echoReply (ethSet bytes m MAC (ipRewrite (ethPayload bytes) IP
      (ipSource (ethPayload bytes)) (icmpToReply (ipPayload (ethPayload bytes)))))
      (ipv4CacheAfterInsert bytes cache)).buffer = ethSet bytes m MAC (ipRewrite
      (ethPayload bytes) IP (ipSource (ethPayload bytes))
      (icmpToReply (ipPayload (ethPayload bytes)))) from rfl,
      ethSet_length hm6 MAC_length hb, hiplen]
    unfold ethHeaderSize
    omega
  · rw [show (Result.mk Action.echoReply (ethSet bytes m MAC (ipRewrite (ethPayload bytes) IP
      (ipSource (ethPayload bytes)) (icmpToReply (ipPayload (ethPayload bytes)))))
      (ipv4CacheAfterInsert bytes cache)).buffer = ethSet bytes m MAC (ipRewrite
      (ethPayload bytes) IP (ipSource (ethPayload bytes))
      (icmpToReply (ipPayload (ethPayload bytes)))) from rfl,
      ethSet_typeVal hm6 MAC_length hb]
    exact h2
  · rw [show (Result.mk Action.echoReply (ethSet bytes m MAC (ipRewrite (ethPayload bytes) IP
      (ipSource (ethPayload bytes)) (icmpToReply (ipPayload (ethPayload bytes)))))
      (ipv4CacheAfterInsert bytes cache)).buffer = ethSet bytes m MAC (ipRewrite
      (ethPayload bytes) IP (ipSource (ethPayload bytes))
      (icmpToReply (ipPayload (ethPayload bytes)))) from rfl, hebuf]
    refine ⟨?_, ?_, ?_, ?_⟩
    · rw [hih, hiplen]
      exact hp20
    · rw [ipRewrite_byteAt0 hp20]
      exact h3.2.1
    · rw [hih, ipRewrite_totalLength hp20]
      exact hTL1
    · rw [ipRewrite_totalLength hp20, hiplen]
      exact hTL2
  · rw [show (Result.mk Action.echoReply (ethSet bytes m MAC (ipRewrite (ethPayload bytes) IP
      (ipSource (ethPayload bytes)) (icmpToReply (ipPayload (ethPayload bytes)))))
      (ipv4CacheAfterInsert bytes cache)).buffer = ethSet bytes m MAC (ipRewrite
      (ethPayload bytes) IP (ipSource (ethPayload bytes))
      (icmpToReply (ipPayload (ethPayload bytes)))) from rfl, hebuf,
      ipRewrite_protocol hp20]
    exact h4
  · show icmpHeaderSize ≤ _
    rw [show (Result.mk Action.echoReply (ethSet bytes m MAC (ipRewrite (ethPayload bytes) IP
      (ipSource (ethPayload bytes)) (icmpToReply (ipPayload (ethPayload bytes)))))
      (ipv4CacheAfterInsert bytes cache)).buffer = ethSet bytes m MAC (ipRewrite
      (ethPayload bytes) IP (ipSource (ethPayload bytes))
      (icmpToReply (ipPayload (ethPayload bytes)))) from rfl, hebuf,
      ipRewrite_payload hp20 IP_length hsrc4 hnpl, icmpToReply_length (by omega)]
    exact hicmp8
  · rw [show (Result.mk Action.echoReply (ethSet bytes m MAC (ipRewrite (ethPayload bytes) IP
      (ipSource (ethPayload bytes)) (icmpToReply (ipPayload (ethPayload bytes)))))
      (ipv4CacheAfterInsert bytes cache)).buffer = ethSet bytes m MAC (ipRewrite
      (ethPayload bytes) IP (ipSource (ethPayload bytes))
      (icmpToReply (ipPayload (ethPayload bytes)))) from rfl, hebuf,
      ipRewrite_payload hp20 IP_length hsrc4 hnpl, icmpToReply_type]
    rfl
  · rw [show (Result.mk Action.echoReply (ethSet bytes m MAC (ipRewrite (ethPayload bytes) IP
      (ipSource (ethPayload bytes)) (icmpToReply (ipPayload (ethPayload bytes)))))
      (ipv4CacheAfterInsert bytes cache)).buffer = ethSet bytes m MAC (ipRewrite
      (ethPayload bytes) IP (ipSource (ethPayload bytes))
      (icmpToReply (ipPayload (ethPayload bytes)))) from rfl, hebuf,
      ipRewrite_payload hp20 IP_length hsrc4 hnpl, icmpToReply_payload]

/-- C7 witness: the concrete Echo Request's reply reparses as an Echo
Reply with the same payload. -/
theorem claim7_witness :
    icmpTypeVal (ipPayload (ethPayload ((process exampleEchoRequest []).buffer))) =
      icmpEchoReply :=
  (claim7_roundtrip exampleEchoRequest [] (by intro e he; simp at he) (by decide) (by decide)
    (by decide) (by decide) (by decide) (by decide) (by decide)).2.2.2.2.2.1

/-- C3 counterexample: a well-formed Echo Request from a source IP that
is not a key of the (empty) cache when `process` is called does NOT get
NoAction — the handler first inserts (source IP → source MAC) and the
lookup then succeeds, so an EchoReply is returned. -/
theorem claim3_counterexample :
    ethParseOk exampleEchoRequest ∧ ethTypeVal exampleEchoRequest = etherTypeIpv4 ∧
    ipParseOk (ethPayload exampleEchoRequest) ∧
    ipProtocol (ethPayload exampleEchoRequest) = protoIcmp ∧
    icmpParseOk (ipPayload (ethPayload exampleEchoRequest)) ∧
    icmpTypeVal (ipPayload (ethPayload exampleEchoRequest)) = icmpEchoRequest ∧
    lookup [] (ipSource (ethPayload exampleEchoRequest)) = none ∧
    (process exampleEchoRequest []).action = Action.echoReply := by
  decide

/-- C3 (amended): `process` returns NoAction with the buffer unchanged
for a well-formed IPv4/ICMP or IPv4/UDP packet whose source IP is not a
key of the cache at the time of the reply lookup, i.e. after the
handler's opportunistic insert of (source IP → source MAC). -/
theorem claim3_nop_when_uncached_at_lookup (bytes : Bytes) (cache : Cache)
    (h1 : ethParseOk bytes) (h2 : ethTypeVal bytes = etherTypeIpv4)
    (h3 : ipParseOk (ethPayload bytes))
    (hlk : lookup (ipv4CacheAfterInsert bytes cache) (ipSource (ethPayload bytes)) = none) :
    (ipProtocol (ethPayload bytes) = protoIcmp →
      process bytes cache = ⟨Action.nop, bytes, ipv4CacheAfterInsert bytes cache⟩) ∧
    (ipProtocol (ethPayload bytes) = protoUdp →
      process bytes cache = ⟨Action.nop, bytes, ipv4CacheAfterInsert bytes cache⟩) := by
  constructor
  · intro h4
    rw [process_ipv4 h1 h2, handleIpv4_icmp h3 h4, handleIcmp_nop hlk]
  · intro h4
    rw [process_ipv4 h1 h2, handleIpv4_udp h3 h4, handleUdp_nop hlk]

/-- C3 witness: an Echo Request from the broadcast source MAC (so the
opportunistic insert is skipped and the lookup fails) yields NoAction. -/
theorem claim3_witness :
    process exampleEchoRequestBcast [] =
      ⟨Action.nop, exampleEchoRequestBcast, ipv4CacheAfterInsert exampleEchoRequestBcast []⟩ :=
  (claim3_nop_when_uncached_at_lookup exampleEchoRequestBcast [] (by decide) (by decide)
    (by decide) (by decide)).1 (by decide)

/-- C10: for a well-formed Echo Request or UDP packet from a source IP
that is uncached when `process` is called, the NoAction outcome is
reachable only when the source MAC is broadcast or the cache is full; in
every other case the opportunistic insert makes the lookup succeed and
the reply's Ethernet destination equals the incoming frame's source
MAC. -/
theorem claim10_uncached_source_reply (bytes : Bytes) (cache : Cache)
    (h1 : ethParseOk bytes) (h2 : ethTypeVal bytes = etherTypeIpv4)
    (h3 : ipParseOk (ethPayload bytes))
    (hproto : (ipProtocol (ethPayload bytes) = protoIcmp ∧
        icmpParseOk (ipPayload (ethPayload bytes)) ∧
        icmpTypeVal (ipPayload (ethPayload bytes)) = icmpEchoRequest) ∨
      (ipProtocol (ethPayload bytes) = protoUdp ∧
        udpParseOk (ipPayload (ethPayload bytes))))
    (h9 : lookup cache (ipSource (ethPayload bytes)) = none) :
    ((process bytes cache).action = Action.nop →
      ethSource bytes = broadcastMac ∨ ARP_CACHE_SIZE ≤ cache.length) ∧
    (ethSource bytes ≠ broadcastMac → cache.length < ARP_CACHE_SIZE →
      (process bytes cache).action ≠ Action.nop ∧
      ethDestination ((process bytes cache).buffer) = ethSource bytes) := by
  have hb : 14 ≤ bytes.length := h1
  have hsrc6 : (ethSource bytes).length = 6 := seg_length (by omega)
  have hmain : ethSource bytes ≠ broadcastMac → cache.length < ARP_CACHE_SIZE →
      (process bytes cache).action ≠ Action.nop ∧
      ethDestination ((process bytes cache).buffer) = ethSource bytes := by
    intro hnb hlt
    have hlk : lookup (ipv4CacheAfterInsert bytes cache) (ipSource (ethPayload bytes)) =
        some (ethSource bytes) := by
      unfold ipv4CacheAfterInsert
      rw [if_neg hnb]
      exact lookup_cacheInsert_self (Or.inr hlt)
    rcases hproto with ⟨h4, h5, h6⟩ | ⟨h4, h5⟩
    · have hred : process bytes cache =
          ⟨Action.echoReply,
           ethSet bytes (ethSource bytes) MAC (ipRewrite (ethPayload bytes) IP
             (ipSource (ethPayload bytes)) (icmpToReply (ipPayload (ethPayload bytes)))),
           ipv4CacheAfterInsert bytes cache⟩ := by
        rw [process_ipv4 h1 h2, handleIpv4_icmp h3 h4, handleIcmp_reply h5 h6 hlk]
      rw [hred]
      exact ⟨by simp, ethSet_destination hsrc6⟩
    · have hred : process bytes cache =
          ⟨Action.udpReply,
           ethSet bytes (ethSource bytes) MAC (ipRewrite (ethPayload bytes) IP
             (ipSource (ethPayload bytes)) (udpEcho (ipPayload (ethPayload bytes)))),
           ipv4CacheAfterInsert bytes cache⟩ := by
        rw [process_ipv4 h1 h2, handleIpv4_udp h3 h4, handleUdp_reply h5 hlk]
      rw [hred]
      exact ⟨by simp, ethSet_destination hsrc6⟩
  refine ⟨?_, hmain⟩
  intro hnop
  by_contra hcon
  push_neg at hcon
  obtain ⟨hnb, hle⟩ := hcon
  exact (hmain hnb (by omega)).1 hnop

/-- C10 witness: a concrete Echo Request from an uncached source with a
non-broadcast MAC and a non-full cache produces a reply addressed to the
frame's source MAC. -/
theorem claim10_witness :
    ethDestination ((process exampleEchoRequest []).buffer) =
      ethSource exampleEchoRequest :=
  ((claim10_uncached_source_reply exampleEchoRequest [] (by decide) (by decide) (by decide)
    (Or.inl (by decide)) (by decide)).2 (by decide) (by decide)).2

end Jnet
